import Mathlib

/-!
Shallow embedding of the intcode virtual machine of damonbarry/advent-of-code-2019.

Two generations of the interpreter exist in the repository:

* `AoC2019.Intcode` embeds the current generation, `src/intcode/instruction.rs`
  together with `src/intcode/program.rs` (the `Program` struct with infallible
  `Fn() -> i64` / `FnMut(i64)` I/O closures, the `System` trait, typed
  `ErrorKind` values enriched with the instruction pointer by `ResultExt::address`).
* `AoC2019.Intcode0` embeds the earlier generation, `src/intcode/mod.rs`
  (the `Program` struct with fallible I/O callables returning `Result`, and the
  `Input`/`Output`/`PositionOutOfRange`/`NotEnoughArguments` error kinds).

Machine integers: memory cells are Rust `i64`; they are modelled as `Int`, with
Rust's truncated division/remainder rendered as `Int.tdiv`/`Int.tmod` and the
`as usize` cast rendered as reduction modulo `2 ^ 64` (`usize_of_i64`).
Rust panics (slice index out of bounds, failed `assert!`, `expect`) are modelled
as an explicit `panic` outcome, distinct from typed errors.
-/

namespace AoC2019

/-- Rust's `v as usize` cast of an `i64` value: two's-complement reinterpretation,
i.e. reduction modulo `2 ^ 64` (nonnegative representative). -/
def usize_of_i64 (v : Int) : Nat := (v.emod (2 ^ 64)).toNat

/-- Rust's `n as i64` cast of a `usize` value: two's-complement reinterpretation
back into the signed 64-bit range. -/
def i64_of_usize (n : Nat) : Int :=
  if n < 2 ^ 63 then (n : Int) else (n : Int) - 2 ^ 64

/-- Outcome of a fallible computation that can also abort the process:
`panic` models a Rust panic (index out of bounds, failed `expect`), `err` a
typed error of type `ε`, `ok` a successful value. -/
inductive PResult (ε α : Type) where
  | panic
  | err (e : ε)
  | ok (a : α)
deriving DecidableEq

namespace Intcode

/-- Parameter addressing mode, from `src/intcode/instruction.rs`. -/
inductive ParameterMode where
  | Position
  | Immediate
deriving DecidableEq

/-- Decoded opcode, from `src/intcode/instruction.rs`.

Modelled from the spec: the `LessThan` variant is dispatched by
`Program::run` in `src/intcode/program.rs` and exercised by its tests, but the
retained copy of `instruction.rs` does not contain it; per spec §4.1/§9 it is a
two-read/one-write opcode (family 7) symmetric to `Addition`/`Multiplication`. -/
inductive Opcode where
  | Addition (param1 param2 : ParameterMode)
  | Halt
  | JumpIf (cmp : Bool) (param1 param2 : ParameterMode)
  | LessThan (param1 param2 : ParameterMode)
  | Multiplication (param1 param2 : ParameterMode)
  | Print (param : ParameterMode)
  | Store
deriving DecidableEq

/-- Error kinds of the current generation, from `src/intcode/instruction.rs`. -/
inductive ErrorKind where
  | AddressOutOfRange (address : Nat)
  | InvalidOpcode
  | InvalidParameterMode (offset : Nat)
  | NotEnoughParameters
  | ReadModeMismatch (expected got : Nat)
deriving DecidableEq

/-- Run-level error, from `src/intcode/program.rs`: an `ErrorKind` enriched
with the absolute address of the failing instruction by `ResultExt::address`. -/
structure Error where
  kind : ErrorKind
  address : Option Nat
deriving DecidableEq

/-- Parameter slot kind, from `src/intcode/instruction.rs`. -/
inductive ParameterType where
  | Read
  | Write
deriving DecidableEq

/-- `Opcode::parse_parameter_mode`: `place = 10^(which+1)`; the quotient
`value / place` (Rust truncated division) selects the mode; the error carries
`which` (1 for the first parameter, 2 for the second). -/
def Opcode.parse_parameter_mode (value : Int) (which : Nat) :
    Except ErrorKind ParameterMode :=
  let place : Int := 10 ^ (which + 1)
  let q := value.tdiv place
  if q = 0 ∨ q = 10 then .ok .Position
  else if q = 1 ∨ q = 11 then .ok .Immediate
  else .error (.InvalidParameterMode which)

/-- `Opcode::parse`: the family is `value % 100` (Rust truncated remainder).

Modelled from the spec: the arm for family 7 (`LessThan`) is missing from the
retained `instruction.rs` but required by the dispatcher and its tests; it is
modelled symmetrically to the `Addition`/`Multiplication` arms per spec §4.1/§9. -/
def Opcode.parse (value : Int) : Except ErrorKind Opcode :=
  if value.tmod 100 = 1 then
    match parse_parameter_mode value 1, parse_parameter_mode value 2 with
    | .error e, _ => .error e
    | .ok _, .error e => .error e
    | .ok p1, .ok p2 => .ok (.Addition p1 p2)
  else if value.tmod 100 = 2 then
    match parse_parameter_mode value 1, parse_parameter_mode value 2 with
    | .error e, _ => .error e
    | .ok _, .error e => .error e
    | .ok p1, .ok p2 => .ok (.Multiplication p1 p2)
  else if value.tmod 100 = 3 then .ok .Store
  else if value.tmod 100 = 4 then
    match parse_parameter_mode value 1 with
    | .error e => .error e
    | .ok p => .ok (.Print p)
  else if value.tmod 100 = 5 then
    match parse_parameter_mode value 1, parse_parameter_mode value 2 with
    | .error e, _ => .error e
    | .ok _, .error e => .error e
    | .ok p1, .ok p2 => .ok (.JumpIf true p1 p2)
  else if value.tmod 100 = 6 then
    match parse_parameter_mode value 1, parse_parameter_mode value 2 with
    | .error e, _ => .error e
    | .ok _, .error e => .error e
    | .ok p1, .ok p2 => .ok (.JumpIf false p1 p2)
  else if value.tmod 100 = 7 then
    match parse_parameter_mode value 1, parse_parameter_mode value 2 with
    | .error e, _ => .error e
    | .ok _, .error e => .error e
    | .ok p1, .ok p2 => .ok (.LessThan p1 p2)
  else if value.tmod 100 = 99 then .ok .Halt
  else .error .InvalidOpcode

/-- Machine state of the current generation: the `Program` struct of
`src/intcode/program.rs`. The `input_fn : Fn() -> i64` closure is modelled as
a pure stream indexed by the number of calls made so far; `output_fn` as the
list of values it has received. -/
structure Machine where
  memory : List Int
  instruction_pointer : Nat
  input_fn : Nat → Int
  input_count : Nat
  outputs : List Int

/-- `System::read_memory` (`self.memory[address]`): `none` models the Rust
index-out-of-bounds panic. -/
def read_memory (m : List Int) (address : Nat) : Option Int := m[address]?

/-- `System::write_memory` (`self.memory[address] = value`): `none` models the
Rust index-out-of-bounds panic. -/
def write_memory (m : List Int) (address : Nat) (value : Int) :
    Option (List Int) :=
  if address < m.length then some (m.set address value) else none

/-- Number of `Read` slots in a parameter-type list (the `count_read_params`
computation in `process_parameters`). -/
def count_read_params (param_types : List ParameterType) : Nat :=
  (param_types.filter (fun ty => ty == ParameterType.Read)).length

/-- The per-parameter loop of `process_parameters` (`for (index, param) in
param_types.iter().enumerate()`), with `base = instruction_pointer + 1`.
`reads`/`writes` accumulate `read_values`/`write_addrs`. An exhausted
`read_iter` models the `expect` panic. -/
def resolve_params (mem : List Int) (base : Nat) :
    Nat → List ParameterType → List ParameterMode → List Int → List Nat →
    PResult ErrorKind (List Int × List Nat)
  | _, [], _, reads, writes => .ok (reads, writes)
  | index, .Read :: rest, modes, reads, writes =>
    match modes with
    | [] => .panic
    | mode :: modes' =>
      match mode with
      | .Position =>
        match read_memory mem (base + index) with
        | none => .panic
        | some cell =>
          let address := usize_of_i64 cell
          if address > mem.length then .err (.AddressOutOfRange address)
          else
            match read_memory mem address with
            | none => .panic
            | some v =>
              resolve_params mem base (index + 1) rest modes' (reads ++ [v]) writes
      | .Immediate =>
        match read_memory mem (base + index) with
        | none => .panic
        | some v =>
          resolve_params mem base (index + 1) rest modes' (reads ++ [v]) writes
  | index, .Write :: rest, modes, reads, writes =>
    match read_memory mem (base + index) with
    | none => .panic
    | some cell =>
      let address := usize_of_i64 cell
      if address > mem.length then .err (.AddressOutOfRange address)
      else resolve_params mem base (index + 1) rest modes (reads ++ []) (writes ++ [address])

/-- `process_parameters`: checks the read-mode count, then that the whole
instruction lies within memory, then resolves each parameter in order. -/
def process_parameters (mem : List Int) (ip : Nat)
    (param_types : List ParameterType) (read_modes : List ParameterMode) :
    PResult ErrorKind (List Int × List Nat) :=
  let instruction_size := 1 + param_types.length
  let count_read := count_read_params param_types
  if read_modes.length ≠ count_read then
    .err (.ReadModeMismatch count_read read_modes.length)
  else if ip + instruction_size > mem.length then
    .err .NotEnoughParameters
  else
    resolve_params mem (ip + 1) 0 param_types read_modes [] []

/-- `instruction::add`. -/
def add (s : Machine) (read_modes : List ParameterMode) :
    PResult ErrorKind (Machine × Nat) :=
  match process_parameters s.memory s.instruction_pointer
      [.Read, .Read, .Write] read_modes with
  | .panic => .panic
  | .err e => .err e
  | .ok (reads, writes) =>
    match reads, writes with
    | r0 :: r1 :: _, w0 :: _ =>
      match write_memory s.memory w0 (r0 + r1) with
      | none => .panic
      | some mem' => .ok ({ s with memory := mem' }, s.instruction_pointer + 4)
    | _, _ => .panic

/-- `instruction::multiply`. -/
def multiply (s : Machine) (read_modes : List ParameterMode) :
    PResult ErrorKind (Machine × Nat) :=
  match process_parameters s.memory s.instruction_pointer
      [.Read, .Read, .Write] read_modes with
  | .panic => .panic
  | .err e => .err e
  | .ok (reads, writes) =>
    match reads, writes with
    | r0 :: r1 :: _, w0 :: _ =>
      match write_memory s.memory w0 (r0 * r1) with
      | none => .panic
      | some mem' => .ok ({ s with memory := mem' }, s.instruction_pointer + 4)
    | _, _ => .panic

/-- Modelled from the spec: `instruction::less_than` is dispatched by
`Program::run` and exercised by its tests but missing from the retained
`instruction.rs`; per spec §4.3/§9 it resolves two reads and one write like
`Addition`/`Multiplication` and writes `1` if `read0 < read1` else `0`,
advancing by 4. -/
def less_than (s : Machine) (read_modes : List ParameterMode) :
    PResult ErrorKind (Machine × Nat) :=
  match process_parameters s.memory s.instruction_pointer
      [.Read, .Read, .Write] read_modes with
  | .panic => .panic
  | .err e => .err e
  | .ok (reads, writes) =>
    match reads, writes with
    | r0 :: r1 :: _, w0 :: _ =>
      match write_memory s.memory w0 (if r0 < r1 then 1 else 0) with
      | none => .panic
      | some mem' => .ok ({ s with memory := mem' }, s.instruction_pointer + 4)
    | _, _ => .panic

/-- `instruction::jump_if`: if `cmp == (read0 != 0)` the target `read1 as usize`
is returned directly as the next instruction pointer, otherwise `ip + 3`. -/
def jump_if (cmp : Bool) (s : Machine) (read_modes : List ParameterMode) :
    PResult ErrorKind (Machine × Nat) :=
  match process_parameters s.memory s.instruction_pointer
      [.Read, .Read] read_modes with
  | .panic => .panic
  | .err e => .err e
  | .ok (reads, _) =>
    match reads with
    | r0 :: r1 :: _ =>
      if cmp = (r0 != 0) then .ok (s, usize_of_i64 r1)
      else .ok (s, s.instruction_pointer + 3)
    | _ => .panic

/-- `instruction::print`. -/
def print (s : Machine) (read_mode : ParameterMode) :
    PResult ErrorKind (Machine × Nat) :=
  match process_parameters s.memory s.instruction_pointer [.Read] [read_mode] with
  | .panic => .panic
  | .err e => .err e
  | .ok (reads, _) =>
    match reads with
    | r0 :: _ =>
      .ok ({ s with outputs := s.outputs ++ [r0] }, s.instruction_pointer + 2)
    | _ => .panic

/-- `instruction::store`: the value is obtained from `read_input` (one call of
the input closure) and written to the resolved write address. -/
def store (s : Machine) : PResult ErrorKind (Machine × Nat) :=
  match process_parameters s.memory s.instruction_pointer [.Write] [] with
  | .panic => .panic
  | .err e => .err e
  | .ok (_, writes) =>
    match writes with
    | w0 :: _ =>
      let value := s.input_fn s.input_count
      match write_memory s.memory w0 value with
      | none => .panic
      | some mem' =>
        .ok ({ s with memory := mem', input_count := s.input_count + 1 },
          s.instruction_pointer + 2)
    | _ => .panic

/-- The dispatch `match opcode { ... }` inside `Program::run`. `Halt` is never
dispatched (the run loop returns before); its arm is an unreachable panic. -/
def execute (op : Opcode) (s : Machine) : PResult ErrorKind (Machine × Nat) :=
  match op with
  | .Addition p1 p2 => add s [p1, p2]
  | .Halt => .panic
  | .JumpIf c p1 p2 => jump_if c s [p1, p2]
  | .LessThan p1 p2 => less_than s [p1, p2]
  | .Multiplication p1 p2 => multiply s [p1, p2]
  | .Print p => print s p
  | .Store => store s

/-- Result of one iteration of the `loop` in `Program::run`: normal halt
(explicit `Halt` opcode or instruction pointer landing exactly on
`len(memory)`), a typed error kind, a panic (including the failed
`assert!(ip <= len)`), or continuation in a new state. -/
inductive StepOut where
  | halt (s : Machine)
  | fail (k : ErrorKind)
  | panic (s : Machine)
  | next (s : Machine)

/-- One iteration of the `loop` in `Program::run`: decode the opcode at the
instruction pointer, dispatch the executor, store its returned value as the
new instruction pointer, run `assert!(ip <= len)`, and halt if `ip == len`. -/
def step (s : Machine) : StepOut :=
  match read_memory s.memory s.instruction_pointer with
  | none => .panic s
  | some cell =>
    match Opcode.parse cell with
    | .error k => .fail k
    | .ok .Halt => .halt s
    | .ok op =>
      match execute op s with
      | .panic => .panic s
      | .err k => .fail k
      | .ok (s', next) =>
        let s2 := { s' with instruction_pointer := next }
        if next > s'.memory.length then .panic s2
        else if next = s'.memory.length then .halt s2
        else .next s2

/-- Overall outcome of `Program::run`: `Ok(())`, a typed `Err`, a panic, or
fuel exhaustion (the loop did not terminate within the given fuel). -/
inductive RunOutcome where
  | ok
  | err (e : Error)
  | panic
  | fuel_out
deriving DecidableEq

/-- The `loop` of `Program::run`, fuelled. A typed error kind is enriched with
the current instruction pointer (`.address(self.instruction_pointer)`). -/
def run_loop : Nat → Machine → RunOutcome × Machine
  | 0, s => (.fuel_out, s)
  | fuel + 1, s =>
    match step s with
    | .halt t => (.ok, t)
    | .fail k => (.err ⟨k, some s.instruction_pointer⟩, s)
    | .panic t => (.panic, t)
    | .next t => run_loop fuel t

/-- `Program::run`: an empty memory succeeds immediately, otherwise the loop
runs from the current state. -/
def run (fuel : Nat) (s : Machine) : RunOutcome × Machine :=
  if s.memory.isEmpty then (.ok, s) else run_loop fuel s

/-- Numeric opcode family of a decoded opcode (the `value % 100` discriminant
of `Opcode::parse`). -/
def opcode_family : Opcode → Int
  | .Addition _ _ => 1
  | .Multiplication _ _ => 2
  | .Store => 3
  | .Print _ => 4
  | .JumpIf true _ _ => 5
  | .JumpIf false _ _ => 6
  | .LessThan _ _ => 7
  | .Halt => 99

/-- Parameter-type list each executor passes to `process_parameters` when
dispatched by `Program::run` (`Halt` is never dispatched). -/
def dispatch_param_types : Opcode → List ParameterType
  | .Addition _ _ => [.Read, .Read, .Write]
  | .Halt => []
  | .JumpIf _ _ _ => [.Read, .Read]
  | .LessThan _ _ => [.Read, .Read, .Write]
  | .Multiplication _ _ => [.Read, .Read, .Write]
  | .Print _ => [.Read]
  | .Store => [.Write]

/-- Mode rule in the words of the amended claim C6, for comparison with
`Opcode.parse_parameter_mode`: for the k-th read parameter (0-indexed) the
quotient of the raw value by `10^(k+2)` selects the mode (`0`/`10` Position,
`1`/`11` Immediate), any other quotient yields `InvalidParameterMode` carrying
the 1-indexed position `k+1`. -/
def spec_quotient_mode (value : Int) (k : Nat) : Except ErrorKind ParameterMode :=
  let q := value.tdiv (10 ^ (k + 2))
  if q = 0 ∨ q = 10 then .ok .Position
  else if q = 1 ∨ q = 11 then .ok .Immediate
  else .error (.InvalidParameterMode (k + 1))

/-- Reachability by zero or more successful (`next`) iterations of the run
loop: the execution trace of a run truncated before some instruction. -/
inductive Steps : Machine → Machine → Prop where
  | refl (s : Machine) : Steps s s
  | head {s t u : Machine} : step s = .next t → Steps t u → Steps s u

/-- The day-2 example program from spec §8. -/
def day2_machine : Machine := ⟨[1, 9, 10, 3, 2, 3, 11, 0, 99, 30, 40, 50], 0, fun _ => 0, 0, []⟩

/-- Print (position mode) whose operand address equals `len(memory)`. -/
def print_edge_machine : Machine := ⟨[4, 4, 99, 0], 0, fun _ => 0, 0, []⟩

/-- JumpIfTrue (both immediate) taken to target 7 in a memory of length 5. -/
def jump_out_machine : Machine := ⟨[1105, 1, 7, 99, 99], 0, fun _ => 0, 0, []⟩

/-- JumpIfTrue (both immediate) taken to target 4 in a memory of length 4. -/
def jump_halt_machine : Machine := ⟨[1105, 1, 4, 99], 0, fun _ => 0, 0, []⟩

/-- An Addition instruction whose parameter cells run past the end of memory. -/
def short_add_machine : Machine := ⟨[1, 5, 6], 0, fun _ => 0, 0, []⟩

/-- The program of the `fails_to_run_program_with_invalid_opcode` test: a
successful Addition at 0, then an invalid opcode cell `5555` at 4. -/
def failing_add_machine : Machine := ⟨[1, 5, 6, 7, 5555, 3, 7, 0], 0, fun _ => 0, 0, []⟩

/-- The state `failing_add_machine` is in when its run fails: the Addition at
0 has written `10` to cell 7 and the instruction pointer is 4. -/
def failing_add_result : Machine := ⟨[1, 5, 6, 7, 5555, 3, 7, 10], 4, fun _ => 0, 0, []⟩

end Intcode

namespace Intcode0

/-- Parameter addressing mode, from `src/intcode/mod.rs`. -/
inductive ParameterMode where
  | Position
  | Immediate
deriving DecidableEq

/-- Decoded opcode of the earlier generation, from `src/intcode/mod.rs`
(the `Mulitplication` spelling is the source's). -/
inductive Opcode where
  | Addition (param1 param2 : ParameterMode)
  | Halt
  | Mulitplication (param1 param2 : ParameterMode)
  | Print (param : ParameterMode)
  | Store
deriving DecidableEq

/-- Resolved operation, from `src/intcode/mod.rs`. -/
inductive Operation where
  | Addition (in1 in2 : Int) (out : Nat)
  | Halt
  | Mulitplication (in1 in2 : Int) (out : Nat)
  | Print (value : Int)
  | Store (value : Int) (address : Nat)
deriving DecidableEq

/-- Error kinds of the earlier generation, from `src/intcode/mod.rs`. -/
inductive ErrorKind where
  | Input
  | InvalidOpcode
  | InvalidParameterMode
  | NotEnoughArguments
  | Output
  | PositionOutOfRange
deriving DecidableEq

/-- Error of the earlier generation: a kind plus the absolute position it is
attributed to, from `src/intcode/mod.rs`. -/
structure Error where
  kind : ErrorKind
  position : Nat
deriving DecidableEq

/-- Machine state of the earlier generation (`Program { state }` of
`src/intcode/mod.rs`) together with a model of the fallible I/O callables of
`run_with_io`: `input_results` gives the result of the n-th input call,
`output_results` the result of the n-th output call, `emitted` the values the
output callable has been invoked with. -/
structure Machine where
  state : List Int
  input_results : Nat → Except Error Int
  input_count : Nat
  output_results : Nat → Except Error Unit
  output_count : Nat
  emitted : List Int

/-- `Program::check_range`: `(0..len).contains(&address)`. -/
def check_range (state : List Int) (address : Nat) : Bool :=
  address < state.length

/-- `Program::parse_parameter_mode` of `src/intcode/mod.rs`: identical mode
rule to the current generation, but the error carries the instruction's
absolute position instead of the parameter index. -/
def parse_parameter_mode (value : Int) (which : Nat) (position : Nat) :
    Except Error ParameterMode :=
  let place : Int := 10 ^ (which + 1)
  let q := value.tdiv place
  if q = 0 ∨ q = 10 then .ok .Position
  else if q = 1 ∨ q = 11 then .ok .Immediate
  else .error ⟨.InvalidParameterMode, position⟩

/-- `Program::parse_opcode` of `src/intcode/mod.rs`: families 1, 2, 3, 4, 99. -/
def parse_opcode (opcode : Int) (position : Nat) : Except Error Opcode :=
  if opcode.tmod 100 = 1 then
    match parse_parameter_mode opcode 1 position,
        parse_parameter_mode opcode 2 position with
    | .error e, _ => .error e
    | .ok _, .error e => .error e
    | .ok p1, .ok p2 => .ok (.Addition p1 p2)
  else if opcode.tmod 100 = 2 then
    match parse_parameter_mode opcode 1 position,
        parse_parameter_mode opcode 2 position with
    | .error e, _ => .error e
    | .ok _, .error e => .error e
    | .ok p1, .ok p2 => .ok (.Mulitplication p1 p2)
  else if opcode.tmod 100 = 3 then .ok .Store
  else if opcode.tmod 100 = 4 then
    match parse_parameter_mode opcode 1 position with
    | .error e => .error e
    | .ok p => .ok (.Print p)
  else if opcode.tmod 100 = 99 then .ok .Halt
  else .error ⟨.InvalidOpcode, position⟩

/-- `Program::get_three_args`: advances `pos` by 4, checks the last parameter
cell is in range (`NotEnoughArguments` at `len - 1`), checks the third
(output) parameter's value is itself a valid address (`PositionOutOfRange`),
and returns the three argument cells cast to `usize` plus the new `pos`. -/
def get_three_args (state : List Int) (pos : Nat) :
    PResult Error ((Nat × Nat × Nat) × Nat) :=
  let pos' := pos + 4
  if ¬ check_range state (pos' - 1) then
    .err ⟨.NotEnoughArguments, state.length - 1⟩
  else
    match state[pos' - 1]? with
    | none => .panic
    | some out_cell =>
      if ¬ check_range state (usize_of_i64 out_cell) then
        .err ⟨.PositionOutOfRange, pos' - 1⟩
      else
        match state[pos' - 3]?, state[pos' - 2]? with
        | some c1, some c2 =>
          .ok ((usize_of_i64 c1, usize_of_i64 c2, usize_of_i64 out_cell), pos')
        | _, _ => .panic

/-- `Program::get_one_arg`: advances `pos` by 2, checks the parameter cell is
in range (`NotEnoughArguments` at `len - 1`), and returns it cast to `usize`. -/
def get_one_arg (state : List Int) (pos : Nat) : PResult Error (Nat × Nat) :=
  let pos' := pos + 2
  if ¬ check_range state (pos' - 1) then
    .err ⟨.NotEnoughArguments, state.length - 1⟩
  else
    match state[pos' - 1]? with
    | none => .panic
    | some c => .ok (usize_of_i64 c, pos')

/-- `Program::resolve_input_args`: dereferences Position-mode inputs (error
payload 1 or 2 names the offending parameter), passes Immediate-mode inputs
through the `usize`-and-back cast; any other opcode hits the `panic!` arm. -/
def resolve_input_args (state : List Int) (opcode : Opcode) (in1 in2 : Nat) :
    PResult Nat (Int × Int) :=
  match opcode with
  | .Addition p1 p2 | .Mulitplication p1 p2 =>
    match p1 with
    | .Position =>
      if ¬ check_range state in1 then .err 1
      else
        match state[in1]? with
        | none => .panic
        | some i1 =>
          match p2 with
          | .Position =>
            if ¬ check_range state in2 then .err 2
            else
              match state[in2]? with
              | none => .panic
              | some i2 => .ok (i1, i2)
          | .Immediate => .ok (i1, i64_of_usize in2)
    | .Immediate =>
      match p2 with
      | .Position =>
        if ¬ check_range state in2 then .err 2
        else
          match state[in2]? with
          | none => .panic
          | some i2 => .ok (i64_of_usize in1, i2)
      | .Immediate => .ok (i64_of_usize in1, i64_of_usize in2)
  | _ => .panic

/-- `Program::resolve_input_arg` (the `Print` case); any other opcode hits the
`panic!` arm. -/
def resolve_input_arg (state : List Int) (opcode : Opcode) (in1 : Nat) :
    PResult Unit Int :=
  match opcode with
  | .Print p =>
    match p with
    | .Position =>
      if ¬ check_range state in1 then .err ()
      else
        match state[in1]? with
        | none => .panic
        | some v => .ok v
    | .Immediate => .ok (i64_of_usize in1)
  | _ => .panic

/-- `Program::next_op`: parses the opcode at `pos`, gathers and resolves its
arguments, and returns the resolved `Operation` plus the advanced `pos`. The
machine is returned as well because the `Store` arm consumes one input call
(even when that call fails). The `Halt` arm resets `pos` to 0 as the source
does. -/
def next_op (m : Machine) (pos : Nat) :
    PResult Error (Operation × Nat) × Machine :=
  match m.state[pos]? with
  | none => (.panic, m)
  | some cell =>
    match parse_opcode cell pos with
    | .error e => (.err e, m)
    | .ok opcode =>
      match opcode with
      | .Addition p1 p2 =>
        match get_three_args m.state pos with
        | .panic => (.panic, m)
        | .err e => (.err e, m)
        | .ok ((in1, in2, out), pos') =>
          match resolve_input_args m.state (.Addition p1 p2) in1 in2 with
          | .panic => (.panic, m)
          | .err p => (.err ⟨.PositionOutOfRange, pos' - 4 + p⟩, m)
          | .ok (i1, i2) => (.ok (.Addition i1 i2 out, pos'), m)
      | .Mulitplication p1 p2 =>
        match get_three_args m.state pos with
        | .panic => (.panic, m)
        | .err e => (.err e, m)
        | .ok ((in1, in2, out), pos') =>
          match resolve_input_args m.state (.Mulitplication p1 p2) in1 in2 with
          | .panic => (.panic, m)
          | .err p => (.err ⟨.PositionOutOfRange, pos' - 4 + p⟩, m)
          | .ok (i1, i2) => (.ok (.Mulitplication i1 i2 out, pos'), m)
      | .Store =>
        match get_one_arg m.state pos with
        | .panic => (.panic, m)
        | .err e => (.err e, m)
        | .ok (address, pos') =>
          if ¬ check_range m.state address then
            (.err ⟨.PositionOutOfRange, pos' - 1⟩, m)
          else
            let res := m.input_results m.input_count
            let m' := { m with input_count := m.input_count + 1 }
            match res with
            | .error e => (.err e, m')
            | .ok value => (.ok (.Store value address, pos'), m')
      | .Print p =>
        match get_one_arg m.state pos with
        | .panic => (.panic, m)
        | .err e => (.err e, m)
        | .ok (in1, pos') =>
          match resolve_input_arg m.state (.Print p) in1 with
          | .panic => (.panic, m)
          | .err _ => (.err ⟨.PositionOutOfRange, pos' - 1⟩, m)
          | .ok value => (.ok (.Print value, pos'), m)
      | .Halt => (.ok (.Halt, 0), m)

/-- Overall outcome of `Program::run_with_io` of `src/intcode/mod.rs`. -/
inductive RunOutcome where
  | ok
  | err (e : Error)
  | panic
  | fuel_out
deriving DecidableEq

/-- Invoke the output callable with `value`: the value is recorded as emitted
and the n-th output result is consumed. -/
def call_output (m : Machine) (value : Int) : Except Error Unit × Machine :=
  (m.output_results m.output_count,
    { m with output_count := m.output_count + 1,
             emitted := m.emitted ++ [value] })

/-- The `loop` of `Program::run_with_io`, fuelled: fetch the next operation and
apply its effect; `Print` forwards the resolved value to the output callable
and propagates its failure; writes out of range model the Rust indexing panic
(upstream checks make them unreachable). -/
def run_loop (fuel : Nat) (m : Machine) (pos : Nat) : RunOutcome × Machine :=
  match fuel with
  | 0 => (.fuel_out, m)
  | fuel + 1 =>
    match next_op m pos with
    | (.panic, m') => (.panic, m')
    | (.err e, m') => (.err e, m')
    | (.ok (op, pos'), m') =>
      match op with
      | .Halt => (.ok, m')
      | .Addition i1 i2 out =>
        if out < m'.state.length then
          run_loop fuel { m' with state := m'.state.set out (i1 + i2) } pos'
        else (.panic, m')
      | .Mulitplication i1 i2 out =>
        if out < m'.state.length then
          run_loop fuel { m' with state := m'.state.set out (i1 * i2) } pos'
        else (.panic, m')
      | .Store value address =>
        if address < m'.state.length then
          run_loop fuel { m' with state := m'.state.set address value } pos'
        else (.panic, m')
      | .Print value =>
        match call_output m' value with
        | (.error e, m'') => (.err e, m'')
        | (.ok _, m'') => run_loop fuel m'' pos'

/-- `Program::run_with_io` of `src/intcode/mod.rs` (the parameterized entry
point with fallible input/output callables): empty state succeeds immediately,
otherwise the loop runs from position 0. -/
def run_fallible (fuel : Nat) (m : Machine) : RunOutcome × Machine :=
  if m.state.isEmpty then (.ok, m) else run_loop fuel m 0

/-- The `stores_input_value` test program, with an input callable that fails
with the `Input` kind (as the default stdin adapter does). -/
def store_fail_machine : Machine :=
  ⟨[3, 3, 99, 0], fun _ => .error ⟨.Input, 0⟩, 0, fun _ => .ok (), 0, []⟩

/-- An immediate-mode Print program, with an output callable that fails with
the `Output` kind (as the default stdout adapter does). -/
def print_fail_machine : Machine :=
  ⟨[104, 77, 99], fun _ => .ok 0, 0, fun _ => .error ⟨.Output, 0⟩, 0, []⟩

end Intcode0

/-! ## Theorems -/

open Intcode in
/-- `Opcode.parse_parameter_mode` either succeeds or fails with
`InvalidParameterMode` carrying exactly the `which` it was given. -/
theorem parse_parameter_mode_cases (v : Int) (w : Nat) :
    (∃ m, Opcode.parse_parameter_mode v w = .ok m) ∨
      Opcode.parse_parameter_mode v w = .error (.InvalidParameterMode w) := by
  simp only [Opcode.parse_parameter_mode]
  split_ifs <;> simp

open Intcode in
/-- C1 counterexample: `307 % 100 = 7`, yet `parse(307)` is an error (the
first parameter-mode quotient `307 / 100 = 3` is invalid), so "for every i64
raw value v with v mod 100 = 7, parse(v) returns a LessThan opcode rather
than an error" is false. -/
theorem c1_counterexample :
    (307 : Int).tmod 100 = 7 ∧
      Opcode.parse 307 = .error (.InvalidParameterMode 1) := ⟨rfl, rfl⟩

set_option maxHeartbeats 1000000 in
open Intcode in
/-- C1 (amended): `Opcode::parse` returns `InvalidOpcode` exactly when
`value % 100` is outside {1,2,3,4,5,6,7,99}; every successfully decoded
opcode's family equals `value % 100` (1 Addition, 2 Multiplication, 3 Store,
4 Print, 5 JumpIfTrue, 6 JumpIfFalse, 7 LessThan, 99 Halt); and when
`value % 100 = 7` and both parameter-mode quotients are valid, the result is
a `LessThan` opcode carrying those modes (family 7 is never `InvalidOpcode`). -/
theorem c1_theorem (v : Int) :
    (Opcode.parse v = .error .InvalidOpcode ↔
      ¬(v.tmod 100 = 1 ∨ v.tmod 100 = 2 ∨ v.tmod 100 = 3 ∨ v.tmod 100 = 4 ∨
        v.tmod 100 = 5 ∨ v.tmod 100 = 6 ∨ v.tmod 100 = 7 ∨ v.tmod 100 = 99)) ∧
    (∀ op : Opcode, Opcode.parse v = .ok op → opcode_family op = v.tmod 100) ∧
    (v.tmod 100 = 7 → ∀ m1 m2 : ParameterMode,
      Opcode.parse_parameter_mode v 1 = .ok m1 →
      Opcode.parse_parameter_mode v 2 = .ok m2 →
      Opcode.parse v = .ok (.LessThan m1 m2)) := by
  unfold Opcode.parse
  rcases parse_parameter_mode_cases v 1 with ⟨m1, hm1⟩ | hm1 <;>
    rcases parse_parameter_mode_cases v 2 with ⟨m2, hm2⟩ | hm2 <;>
    rw [hm1, hm2] <;>
    split_ifs <;>
    simp_all [opcode_family]

open Intcode in
/-- C1 witness: `1107` has family 7 and valid immediate modes, so it decodes
to `LessThan`. -/
theorem c1_witness :
    Opcode.parse 1107 = .ok (.LessThan .Immediate .Immediate) :=
  (c1_theorem 1107).2.2 (by decide) .Immediate .Immediate rfl rfl

open Intcode in
/-- C6 counterexample: the claim's digit rule predicts
`InvalidParameterMode(0)` for `301` (digit 3 at place 100, 0-indexed
parameter 0) and a successful `Addition(Position, Position)` decode for
`20001` (digits 0 at places 100 and 1000); the code instead reports
`InvalidParameterMode(1)` in both cases, because it examines the whole
quotient (`301/100 = 3`, `20001/100 = 200`) and carries the 1-indexed
parameter position. -/
theorem c6_counterexample :
    Opcode.parse 301 = .error (.InvalidParameterMode 1) ∧
      Opcode.parse 20001 = .error (.InvalidParameterMode 1) := ⟨rfl, rfl⟩

open Intcode in
/-- C6 (amended): for the k-th read parameter (0-indexed) of a raw cell, the
mode is selected by the quotient of the raw value by `10^(k+2)` — quotient 0
or 10 gives Position, 1 or 11 gives Immediate, and any other quotient gives
`InvalidParameterMode(k+1)` carrying the 1-indexed parameter position. -/
theorem c6_theorem (v : Int) (k : Nat) :
    Opcode.parse_parameter_mode v (k + 1) = spec_quotient_mode v k := rfl

open Intcode in
/-- C2: evaluation at the failing input. On `[4,4,99,0]` (a position-mode
Print whose operand address is 4 = `len(memory)`) the resolver's `address >
len` check passes and the subsequent `memory[4]` access panics, contradicting
the claim that out-of-range addresses are always returned as typed errors
before any unchecked access. -/
theorem c2_theorem : (run 2 print_edge_machine).1 = .panic := rfl

open Intcode in
/-- C7: running the VM on `[1,9,10,3,2,3,11,0,99,30,40,50]` halts
successfully with memory `[3500,9,10,70,2,3,11,0,99,30,40,50]`, consuming no
input and producing no output. -/
theorem c7_theorem :
    (run 4 day2_machine).1 = .ok ∧
      (run 4 day2_machine).2.memory = [3500, 9, 10, 70, 2, 3, 11, 0, 99, 30, 40, 50] ∧
      (run 4 day2_machine).2.outputs = [] ∧
      (run 4 day2_machine).2.input_count = 0 :=
  ⟨rfl, rfl, rfl, rfl⟩

open Intcode in
/-- `process_parameters` fails with `NotEnoughParameters` whenever the opcode
cell plus all parameter cells do not fit below `len(memory)` and the
read-mode count matches, regardless of the memory's contents. -/
theorem process_parameters_not_enough (mem : List Int) (ip : Nat)
    (pts : List ParameterType) (rms : List ParameterMode)
    (hcount : rms.length = count_read_params pts)
    (hb : ip + (1 + pts.length) > mem.length) :
    process_parameters mem ip pts rms = .err .NotEnoughParameters := by
  simp only [process_parameters]
  rw [if_neg (not_ne_iff.mpr hcount), if_pos hb]

open Intcode in
/-- C3 counterexample: on `[1105,1,7,99,99]` the taken jump targets 7, which
is strictly greater than `len(memory) = 5`; the run panics at the
`assert!(ip <= len)` in `Program::run` immediately after the jump executes —
it is not "detected as a typed error on the next decode/resolve cycle". -/
theorem c3_counterexample : (run 2 jump_out_machine).1 = RunOutcome.panic := rfl

open Intcode in
/-- C3 (amended): a taken `JumpIfTrue`/`JumpIfFalse` stores the target value
directly as the next instruction pointer without dereferencing it or touching
the machine state; then the run loop's bounds check decides: a target
strictly greater than `len(memory)` trips the `assert!` (a panic, not a
typed error) immediately, a target equal to `len(memory)` terminates the run
as an implicit success, and only a target strictly below `len(memory)` is
vetted by the next decode/resolve cycle — so instruction-pointer values
strictly greater than `len(memory)` are never used for decoding. -/
theorem c3_theorem (fuel : Nat) (s : Machine) (cell : Int) (cmp : Bool)
    (m1 m2 : ParameterMode) (r0 r1 : Int) (rest : List Int) (ws : List Nat)
    (hread : read_memory s.memory s.instruction_pointer = some cell)
    (hparse : Opcode.parse cell = .ok (.JumpIf cmp m1 m2))
    (hproc : process_parameters s.memory s.instruction_pointer [.Read, .Read] [m1, m2]
        = .ok (r0 :: r1 :: rest, ws))
    (htaken : cmp = (r0 != 0)) :
    run_loop (fuel + 1) s =
      (if usize_of_i64 r1 > s.memory.length then
        (.panic, { s with instruction_pointer := usize_of_i64 r1 })
      else if usize_of_i64 r1 = s.memory.length then
        (.ok, { s with instruction_pointer := usize_of_i64 r1 })
      else run_loop fuel { s with instruction_pointer := usize_of_i64 r1 }) := by
  have hexec : execute (.JumpIf cmp m1 m2) s = .ok (s, usize_of_i64 r1) := by
    unfold execute
    dsimp only
    unfold jump_if
    rw [hproc]
    dsimp only
    rw [if_pos htaken]
  have hstep : step s =
      (if usize_of_i64 r1 > s.memory.length then
        StepOut.panic { s with instruction_pointer := usize_of_i64 r1 }
      else if usize_of_i64 r1 = s.memory.length then
        StepOut.halt { s with instruction_pointer := usize_of_i64 r1 }
      else StepOut.next { s with instruction_pointer := usize_of_i64 r1 }) := by
    unfold step
    rw [hread]
    dsimp only
    rw [hparse]
    dsimp only
    rw [hexec]
  simp only [run_loop, hstep]
  split_ifs <;> rfl

open Intcode in
/-- C3 witness: the taken jump of `[1105,1,7,99,99]` stores target 7 and the
run loop panics on the assertion, the memory untouched. -/
theorem c3_witness : run_loop 1 jump_out_machine =
    (.panic, { jump_out_machine with instruction_pointer := 7 }) := by
  have h := c3_theorem 0 jump_out_machine 1105 true .Immediate .Immediate 1 7 [] []
    rfl rfl rfl rfl
  rw [show usize_of_i64 7 = 7 from rfl] at h
  simpa [jump_out_machine] using h

open Intcode in
/-- C4 counterexample: `[1,5,6]` (an Addition needing cells 0..3 in a memory
of length 3) fails with `NotEnoughParameters`, but the error's reported
address is 0 — the failing instruction's pointer — not the last valid memory
index 2 claimed. -/
theorem c4_counterexample :
    run 2 short_add_machine =
      (.err ⟨.NotEnoughParameters, some 0⟩, short_add_machine) ∧
    short_add_machine.memory.length - 1 = 2 := ⟨rfl, rfl⟩

open Intcode in
/-- C4 (amended): whenever a decoded non-Halt instruction's opcode cell plus
all of its parameter cells do not lie within memory bounds from the current
instruction pointer, the run fails with `NotEnoughParameters` before any
operand is resolved and with no memory mutation, and the error is reported
at the current instruction pointer (the failing instruction's address), not
at the last valid memory index. -/
theorem c4_theorem (fuel : Nat) (s : Machine) (cell : Int) (op : Opcode)
    (hread : read_memory s.memory s.instruction_pointer = some cell)
    (hparse : Opcode.parse cell = .ok op)
    (hhalt : op ≠ .Halt)
    (hb : s.instruction_pointer + (1 + (dispatch_param_types op).length) > s.memory.length) :
    run_loop (fuel + 1) s =
      (.err ⟨.NotEnoughParameters, some s.instruction_pointer⟩, s) := by
  have hstep : step s = .fail .NotEnoughParameters := by
    unfold step
    rw [hread]
    dsimp only
    rw [hparse]
    cases op with
    | Halt => exact absurd rfl hhalt
    | Addition p1 p2 =>
      dsimp only
      unfold execute
      dsimp only
      unfold add
      rw [process_parameters_not_enough _ _ _ _ (by rfl)
        (by simpa [dispatch_param_types] using hb)]
    | JumpIf c p1 p2 =>
      dsimp only
      unfold execute
      dsimp only
      unfold jump_if
      rw [process_parameters_not_enough _ _ _ _ (by rfl)
        (by simpa [dispatch_param_types] using hb)]
    | LessThan p1 p2 =>
      dsimp only
      unfold execute
      dsimp only
      unfold less_than
      rw [process_parameters_not_enough _ _ _ _ (by rfl)
        (by simpa [dispatch_param_types] using hb)]
    | Multiplication p1 p2 =>
      dsimp only
      unfold execute
      dsimp only
      unfold multiply
      rw [process_parameters_not_enough _ _ _ _ (by rfl)
        (by simpa [dispatch_param_types] using hb)]
    | Print p =>
      dsimp only
      unfold execute
      dsimp only
      unfold print
      rw [process_parameters_not_enough _ _ _ _ (by rfl)
        (by simpa [dispatch_param_types] using hb)]
    | Store =>
      dsimp only
      unfold execute
      dsimp only
      unfold store
      rw [process_parameters_not_enough _ _ _ _ (by rfl)
        (by simpa [dispatch_param_types] using hb)]
  simp [run_loop, hstep]

open Intcode in
/-- C4 witness: the truncated Addition `[1,5,6]` fails with
`NotEnoughParameters` reported at instruction pointer 0. -/
theorem c4_witness : run_loop 1 short_add_machine =
    (.err ⟨.NotEnoughParameters, some 0⟩, short_add_machine) :=
  c4_theorem 0 short_add_machine 1 (.Addition .Position .Position)
    rfl rfl (by decide) (by decide)

open Intcode in
/-- C9: after a successfully executed non-Halt instruction, the instruction
pointer is set to the executor's returned value, and when that value equals
`len(memory)` the run terminates as a success with no explicit Halt cell. -/
theorem c9_theorem (fuel : Nat) (s : Machine) (cell : Int) (op : Opcode)
    (s' : Machine) (next : Nat)
    (hread : read_memory s.memory s.instruction_pointer = some cell)
    (hparse : Opcode.parse cell = .ok op)
    (hhalt : op ≠ .Halt)
    (hexec : execute op s = .ok (s', next))
    (hlen : next = s'.memory.length) :
    run_loop (fuel + 1) s = (.ok, { s' with instruction_pointer := next }) := by
  subst hlen
  have hstep : step s = .halt { s' with instruction_pointer := s'.memory.length } := by
    unfold step
    rw [hread]
    dsimp only
    rw [hparse]
    cases op with
    | Halt => exact absurd rfl hhalt
    | Addition p1 p2 => dsimp only; rw [hexec]; simp
    | JumpIf c p1 p2 => dsimp only; rw [hexec]; simp
    | LessThan p1 p2 => dsimp only; rw [hexec]; simp
    | Multiplication p1 p2 => dsimp only; rw [hexec]; simp
    | Print p => dsimp only; rw [hexec]; simp
    | Store => dsimp only; rw [hexec]; simp
  simp [run_loop, hstep]

open Intcode in
/-- C9 witness: on `[1105,1,4,99]` the taken jump's target 4 equals
`len(memory)`, and the run halts successfully with the pointer set there. -/
theorem c9_witness : run_loop 1 jump_halt_machine =
    (.ok, { jump_halt_machine with instruction_pointer := 4 }) :=
  c9_theorem 0 jump_halt_machine 1105 (.JumpIf true .Immediate .Immediate)
    jump_halt_machine 4 rfl rfl (by decide) rfl rfl

open Intcode in
/-- Along the run loop, a typed-error result leaves the machine exactly as the
successful iterations before it left it: the returned machine is reached from
the start state by `next` steps only, the failing step is located at its
instruction pointer, and the reported address is that pointer. -/
theorem run_loop_err_trace (fuel : Nat) :
    ∀ (s : Machine) (e : Error) (m : Machine),
      run_loop fuel s = (.err e, m) →
      Steps s m ∧ ∃ k, step m = .fail k ∧ e = ⟨k, some m.instruction_pointer⟩ := by
  induction fuel with
  | zero =>
    intro s e m h
    simp [run_loop] at h
  | succ fuel ih =>
    intro s e m h
    simp only [run_loop] at h
    cases hstep : step s with
    | halt t => rw [hstep] at h; simp at h
    | fail k =>
      rw [hstep] at h
      injection h with h1 h2
      injection h1 with h3
      subst h2
      exact ⟨Steps.refl s, k, hstep, h3.symm⟩
    | panic t => rw [hstep] at h; simp at h
    | next t =>
      rw [hstep] at h
      exact (ih t e m h).imp (Steps.head hstep) id

open Intcode in
/-- C8: when a run fails, the failure is returned as a typed error and the
returned machine is exactly the state produced by the successful execution
truncated right before the failing instruction (`Steps` is the
successful-step reachability relation): the failing instruction begins at the
reported address (the machine's instruction pointer), it performed no memory
mutation, and nothing runs after the failure — no retry, no rollback. -/
theorem c8_theorem (fuel : Nat) (s : Machine) (e : Error) (m : Machine)
    (h : run fuel s = (.err e, m)) :
    Steps s m ∧ ∃ k, step m = .fail k ∧ e = ⟨k, some m.instruction_pointer⟩ := by
  unfold run at h
  by_cases hempty : s.memory.isEmpty
  · rw [if_pos hempty] at h; simp at h
  · rw [if_neg hempty] at h
    exact run_loop_err_trace fuel s e m h

open Intcode in
/-- C8 witness: `[1,5,6,7,5555,3,7,0]` fails with `InvalidOpcode` at address
4; the returned machine (Addition's write of 10 to cell 7 persisted, pointer
at 4) is reachable by successful steps and is where the failing decode sits. -/
theorem c8_witness :
    Steps failing_add_machine failing_add_result ∧
      ∃ k, step failing_add_result = .fail k ∧
        (⟨.InvalidOpcode, some 4⟩ : Error) = ⟨k, some failing_add_result.instruction_pointer⟩ :=
  c8_theorem 8 failing_add_machine ⟨.InvalidOpcode, some 4⟩ failing_add_result rfl

open Intcode in
/-- C10: a Position-mode read parameter or a write parameter whose operand
cell holds a negative i64 value `v` resolves to `AddressOutOfRange` carrying
`v + 2^64` (the `as usize` reinterpretation), without any memory access at
that address — given that a Rust `Vec<i64>` is no longer than `2^63 - 1`. -/
theorem c10_theorem (mem : List Int) (base index : Nat) (rest : List ParameterType)
    (modes : List ParameterMode) (reads : List Int) (writes : List Nat) (v : Int)
    (hcell : read_memory mem (base + index) = some v)
    (hneg : v < 0) (hrange : -(2 : Int) ^ 63 ≤ v) (hlen : mem.length < 2 ^ 63) :
    resolve_params mem base index (.Write :: rest) modes reads writes
        = .err (.AddressOutOfRange (v + 2 ^ 64).toNat) ∧
      ∀ modes' : List ParameterMode,
        resolve_params mem base index (.Read :: rest) (.Position :: modes') reads writes
          = .err (.AddressOutOfRange (v + 2 ^ 64).toNat) := by
  have h64 : (2 : Int) ^ 64 = 18446744073709551616 := by norm_num
  have h63 : (2 : Int) ^ 63 = 9223372036854775808 := by norm_num
  have h63n : (2 : Nat) ^ 63 = 9223372036854775808 := by norm_num
  rw [h63] at hrange
  rw [h63n] at hlen
  have hu : usize_of_i64 v = (v + 2 ^ 64).toNat := by
    unfold usize_of_i64
    rw [h64]
    congr 1
    have h1 := @Int.add_mul_emod_self_left v 18446744073709551616 1
    rw [mul_one] at h1
    show v % 18446744073709551616 = v + 18446744073709551616
    rw [← h1]
    exact Int.emod_eq_of_lt (by omega) (by omega)
  have hgt : (v + 2 ^ 64).toNat > mem.length := by
    rw [h64]; omega
  constructor
  · simp only [resolve_params]
    rw [hcell]
    dsimp only
    rw [hu, if_pos hgt]
  · intro modes'
    simp only [resolve_params]
    rw [hcell]
    dsimp only
    rw [hu, if_pos hgt]

open Intcode in
/-- C10 witness: a write parameter and a Position-mode read parameter whose
operand cell holds `-1` both fail with `AddressOutOfRange(2^64 - 1)`. -/
theorem c10_witness :
    resolve_params [3, -1, 99] 1 0 [.Write] [] [] []
        = .err (.AddressOutOfRange ((-1 : Int) + 2 ^ 64).toNat) ∧
      resolve_params [3, -1, 99] 1 0 [.Read] [.Position] [] []
        = .err (.AddressOutOfRange ((-1 : Int) + 2 ^ 64).toNat) := by
  have h := c10_theorem [3, -1, 99] 1 0 [] [] [] [] (-1)
    (by decide) (by decide) (by decide) (by decide)
  exact ⟨h.1, h.2 []⟩

open Intcode0 in
/-- C5: in the parameterized `run_with_io` entry point of `src/intcode/mod.rs`
(whose input/output callables return `Result` and so can signal failure), a
Store instruction whose input callable fails surfaces that error unchanged —
in particular the `Input` kind produced by the default stdin adapter — with
the callable consumed exactly once and no memory mutation; likewise a Print
instruction whose output callable fails surfaces that error — in particular
the `Output` kind of the default stdout adapter — with the callable invoked
exactly once on the resolved value. Neither is retried. -/
theorem c5_theorem (fuel : Nat) (m : Machine) (pos : Nat) (e : Error) :
    (∀ v w : Int,
      m.state[pos]? = some v → v.tmod 100 = 3 →
      m.state[pos + 1]? = some w →
      pos + 1 < m.state.length →
      usize_of_i64 w < m.state.length →
      m.input_results m.input_count = .error e →
      run_loop (fuel + 1) m pos =
        (.err e, { m with input_count := m.input_count + 1 })) ∧
    (∀ v w : Int,
      m.state[pos]? = some v → v.tmod 100 = 4 → v.tdiv 100 = 1 →
      m.state[pos + 1]? = some w →
      pos + 1 < m.state.length →
      m.output_results m.output_count = .error e →
      run_loop (fuel + 1) m pos =
        (.err e, { m with
            output_count := m.output_count + 1
            emitted := m.emitted ++ [i64_of_usize (usize_of_i64 w)] })) := by
  constructor
  · intro v w hv h3 hw hlt haddr hinput
    have hparse : parse_opcode v pos = .ok .Store := by
      simp [parse_opcode, h3]
    have he1 : pos + 2 - 1 = pos + 1 := rfl
    have harg : get_one_arg m.state pos = .ok (usize_of_i64 w, pos + 2) := by
      unfold get_one_arg
      dsimp only
      have hcr : check_range m.state (pos + 2 - 1) = true := by
        simp [check_range, he1]
        omega
      rw [if_neg (not_not_intro hcr), he1, hw]
    have hcr2 : check_range m.state (usize_of_i64 w) = true := by
      simp [check_range]
      exact haddr
    have hnext : next_op m pos = (.err e, { m with input_count := m.input_count + 1 }) := by
      unfold next_op
      rw [hv]
      dsimp only
      rw [hparse]
      dsimp only
      rw [harg]
      dsimp only
      rw [if_neg (not_not_intro hcr2), hinput]
    simp only [Intcode0.run_loop]
    rw [hnext]
  · intro v w hv h4 hq hw hlt houtput
    have h100 : (10 : Int) ^ (1 + 1) = 100 := by norm_num
    have hparse : parse_opcode v pos = .ok (.Print .Immediate) := by
      simp [parse_opcode, parse_parameter_mode, h4, hq, h100]
    have he1 : pos + 2 - 1 = pos + 1 := rfl
    have harg : get_one_arg m.state pos = .ok (usize_of_i64 w, pos + 2) := by
      unfold get_one_arg
      dsimp only
      have hcr : check_range m.state (pos + 2 - 1) = true := by
        simp [check_range, he1]
        omega
      rw [if_neg (not_not_intro hcr), he1, hw]
    have hnext : next_op m pos =
        (.ok (.Print (i64_of_usize (usize_of_i64 w)), pos + 2), m) := by
      unfold next_op
      rw [hv]
      dsimp only
      rw [hparse]
      dsimp only
      rw [harg]
      dsimp only
      unfold resolve_input_arg
      dsimp only
    simp only [Intcode0.run_loop]
    rw [hnext]
    dsimp only
    unfold call_output
    rw [houtput]

open Intcode0 in
/-- C5 witness: on `[3,3,99,0]` a failing input callable surfaces its
`Input`-kind error with the input consumed once; on `[104,77,99]` a failing
output callable surfaces its `Output`-kind error after being invoked once
with the resolved value 77. -/
theorem c5_witness :
    run_loop 1 store_fail_machine 0 =
      (.err ⟨.Input, 0⟩, { store_fail_machine with input_count := 1 }) ∧
    run_loop 1 print_fail_machine 0 =
      (.err ⟨.Output, 0⟩,
        { print_fail_machine with
            output_count := 1
            emitted := print_fail_machine.emitted
              ++ [i64_of_usize (usize_of_i64 77)] }) :=
  ⟨(c5_theorem 0 store_fail_machine 0 ⟨.Input, 0⟩).1 3 3 rfl (by decide) rfl
      (by decide) (by decide) rfl,
   (c5_theorem 0 print_fail_machine 0 ⟨.Output, 0⟩).2 104 77 rfl (by decide)
      (by decide) rfl (by decide) rfl⟩

end AoC2019
